import Mathlib

/-!
Shallow embedding of the use-server-action middleware composition core:
the ServerActionResult envelope (server-action source, part_006), the
middleware chain fold of ActionBuilder.handle (part_004), the plain
middleware helpers applyMiddleware and withZodValidation
(src/server/middleware-utils.ts), the context-middleware marker
(part_005), the two ActionBuilder.use variants (part_004 and
src/server/middleware.ts), and the serverAction wrapper (part_006).

Effectful TypeScript functions are modelled in an explicit
state-and-exception monad M: the state component stands for the
observable side effects of a call (for example a call-order trace) and
the exception component stands for a rejected promise. Middleware are
higher-order functions over computations in M, exactly mirroring the
source shapes (next, ...args) and (next, ctx, ...args).
-/

namespace UseServerAction

/-- ServerActionResult modelled at field level: a success object carries
ok true and data; an error object carries ok false, a message and an
optional code; fields that the source object literal does not set are
none. From the server-action source (part_006). -/
structure ServerActionResult (T : Type) where
  ok : Bool
  data : Option T
  message : Option String
  code : Option String
  deriving Repr, DecidableEq

/-- The success(data) helper (part_006): the object with ok true and the
payload, and no failure fields. -/
def success {T : Type} (d : T) : ServerActionResult T :=
  ⟨true, some d, none, none⟩

/-- The error(message, code?) helper (part_006): the object with ok false,
the message, the optional code, and no data field. -/
def error {T : Type} (m : String) (c : Option String) : ServerActionResult T :=
  ⟨false, none, some m, c⟩

/-- Effect monad for one invocation: a computation takes the current
effect state and returns the new state together with either a resolved
value or a rejected promise carrying a thrown value. -/
def M (ε σ α : Type) : Type := σ → σ × Except ε α

/-- Resolve with a value, no effects. -/
def M.pure {ε σ α : Type} (a : α) : M ε σ α := fun s => (s, Except.ok a)

/-- Sequencing of awaits: a rejection short-circuits, exactly as an
un-caught awaited rejection does in the source, which contains no
try/catch in the composition code. -/
def M.bind {ε σ α β : Type} (x : M ε σ α) (f : α → M ε σ β) : M ε σ β :=
  fun s =>
    match x s with
    | (s1, Except.ok a) => f a s1
    | (s1, Except.error e) => (s1, Except.error e)

/-- Reject the promise with a thrown value. -/
def M.throw {ε σ α : Type} (e : ε) : M ε σ α := fun s => (s, Except.error e)

/-- Record one observable event when the state is an event log. -/
def M.tell {ε τ : Type} (t : τ) : M ε (List τ) Unit :=
  fun s => (s ++ [t], Except.ok ())

/-- The computation resolves to value a from every start state. -/
def producesOk {ε σ α : Type} (m : M ε σ α) (a : α) : Prop :=
  ∀ s, (m s).2 = Except.ok a

/-- Continuation type used inside ActionBuilder.handle: CtxNextFn takes
the accumulated context and the call arguments. -/
def CtxNextFn (ε σ Γ A ρ : Type) : Type :=
  Γ → A → M ε σ (ServerActionResult ρ)

/-- Continuation type of plain middleware: arguments only. -/
def PlainNextFn (ε σ A ρ : Type) : Type :=
  A → M ε σ (ServerActionResult ρ)

/-- Plain middleware shape (next, ...params) from the types source. -/
def Middleware (ε σ A ρ : Type) : Type :=
  PlainNextFn ε σ A ρ → A → M ε σ (ServerActionResult ρ)

/-- Context-aware middleware shape (next, ctx, ...params) from the types
source, where next itself takes (ctx, ...params). -/
def ContextMiddleware (ε σ Γ A ρ : Type) : Type :=
  CtxNextFn ε σ Γ A ρ → Γ → A → M ε σ (ServerActionResult ρ)

/-- One stored chain entry of the builder. The source stores plain
functions and discriminates them at chain-assembly time with
isContextMiddleware; following the spec's design note, the entry is
modelled as the tagged variant that the marker check decides (the
bridge from marker-tagged function values is attachLink below). -/
inductive Link (ε σ Γ A ρ : Type) where
  | plain (f : Middleware ε σ A ρ)
  | contextual (f : ContextMiddleware ε σ Γ A ρ)

/-- BaseContext, a record of string keys; the value type is irrelevant to
the composition engine, which never reads the context. -/
def BaseContext : Type := List (String × String)

/-- The empty object seeding every invocation of a built action. -/
def emptyContext : BaseContext := []

/-- One reduceRight step of ActionBuilder.handle (part_004 lines
129-149): a context middleware receives the context and a next taking
(newCtx, ...params); a plain middleware receives a next over (...params)
that delegates with the received ctx passed through unchanged. -/
def wrapLink {ε σ Γ A ρ : Type} (mw : Link ε σ Γ A ρ)
    (next : CtxNextFn ε σ Γ A ρ) : CtxNextFn ε σ Γ A ρ :=
  match mw with
  | Link.contextual f => fun ctx a => f (fun newCtx params => next newCtx params) ctx a
  | Link.plain f => fun ctx a => f (fun params => next ctx params) a

/-- The terminal continuation of the chain: the handler itself. -/
def finalHandler {ε σ Γ A ρ : Type}
    (handler : Γ → A → M ε σ (ServerActionResult ρ)) : CtxNextFn ε σ Γ A ρ :=
  fun ctx a => handler ctx a

/-- The chain built inside ActionBuilder.handle by folding the middleware
list from the right around the handler. -/
def buildChain {ε σ Γ A ρ : Type} (mws : List (Link ε σ Γ A ρ))
    (handler : Γ → A → M ε σ (ServerActionResult ρ)) : CtxNextFn ε σ Γ A ρ :=
  mws.foldr wrapLink (finalHandler handler)

/-- The action returned by ActionBuilder.handle (part_004 lines 117-153):
per call it folds the chain and starts it with the empty context object
and the caller's arguments. -/
def handleAction {ε σ A ρ : Type} (mws : List (Link ε σ BaseContext A ρ))
    (handler : BaseContext → A → M ε σ (ServerActionResult ρ)) :
    A → M ε σ (ServerActionResult ρ) :=
  fun args => buildChain mws handler emptyContext args

/-- applyMiddleware (middleware-utils.ts lines 48-58): reduceRight fold of
plain middleware around a base action. -/
def applyMiddleware {ε σ A ρ : Type}
    (action : A → M ε σ (ServerActionResult ρ))
    (middleware : List (Middleware ε σ A ρ)) :
    A → M ε σ (ServerActionResult ρ) :=
  middleware.foldr (fun mw next => fun params => mw next params) action

/-- The link never looks at its next continuation: behaviour is the same
for any two continuations (it short-circuits). -/
def Link.ignoresNext {ε σ Γ A ρ : Type} : Link ε σ Γ A ρ → Prop
  | Link.plain f => ∀ n n' a, f n a = f n' a
  | Link.contextual f => ∀ n n' ctx a, f n ctx a = f n' ctx a

/-- The link resolves to exactly the result r on every call. -/
def Link.alwaysReturns {ε σ Γ A ρ : Type} (l : Link ε σ Γ A ρ)
    (r : ServerActionResult ρ) : Prop :=
  match l with
  | Link.plain f => ∀ n a, producesOk (f n a) r
  | Link.contextual f => ∀ n ctx a, producesOk (f n ctx a) r

/-- The link returns the result of next unchanged: whenever every call of
its continuation resolves to r, the link resolves to r. -/
def Link.preservesResult {ε σ Γ A ρ : Type} : Link ε σ Γ A ρ → Prop
  | Link.plain f => ∀ r n a, (∀ a', producesOk (n a') r) → producesOk (f n a) r
  | Link.contextual f =>
      ∀ r n ctx a, (∀ ctx' a', producesOk (n ctx' a') r) → producesOk (f n ctx a) r

/-- The link calls next exactly once with unchanged arguments and context
and returns its result unmodified, with no effects of its own. -/
def Link.isIdentity {ε σ Γ A ρ : Type} : Link ε σ Γ A ρ → Prop
  | Link.plain f => ∀ n a, f n a = n a
  | Link.contextual f => ∀ n ctx a, f n ctx a = n ctx a

/-- The link performs no exception catching: whenever every call of its
continuation rejects with the thrown value e, the link rejects with e. -/
def Link.propagatesThrow {ε σ Γ A ρ : Type} : Link ε σ Γ A ρ → Prop
  | Link.plain f =>
      ∀ (e : ε) n a, (∀ a' s, (n a' s).2 = Except.error e) →
        ∀ s, (f n a s).2 = Except.error e
  | Link.contextual f =>
      ∀ (e : ε) n ctx a, (∀ ctx' a' s, (n ctx' a' s).2 = Except.error e) →
        ∀ s, (f n ctx a s).2 = Except.error e

/-- The link rejects with the thrown value e on every call, never
resolving (it throws instead of returning a Result). -/
def Link.alwaysThrows {ε σ Γ A ρ : Type} (l : Link ε σ Γ A ρ) (e : ε) : Prop :=
  match l with
  | Link.plain f => ∀ n a s, (f n a s).2 = Except.error e
  | Link.contextual f => ∀ n ctx a s, (f n ctx a s).2 = Except.error e

/-- Every resolved value of the computation is a success Result. -/
def noFailResult {ε σ ρ : Type} (m : M ε σ (ServerActionResult ρ)) : Prop :=
  ∀ s r, (m s).2 = Except.ok r → r.ok = true

/-- The link introduces no Failure of its own: whenever every call of its
continuation yields only success Results, so does the link. -/
def Link.neverFails {ε σ Γ A ρ : Type} : Link ε σ Γ A ρ → Prop
  | Link.plain f => ∀ n a, (∀ a', noFailResult (n a')) → noFailResult (f n a)
  | Link.contextual f =>
      ∀ n ctx a, (∀ ctx' a', noFailResult (n ctx' a')) → noFailResult (f n ctx a)

/-- A JavaScript function value: its code together with the boolean that
records whether the CONTEXT_MIDDLEWARE marker symbol is set on it
(part_005). A freshly written function literal has the marker unset. -/
structure JsFn (F : Type) where
  code : F
  contextMarker : Bool

/-- isContextMiddleware (part_005 lines 13-15): reads the marker. -/
def isContextMiddleware {F : Type} (v : JsFn F) : Bool :=
  v.contextMarker

/-- createContextMiddleware (part_005 lines 39-49): sets the marker on the
given function and returns that same function. -/
def createContextMiddleware {F : Type} (v : JsFn F) : JsFn F :=
  JsFn.mk v.code true

/-- createMiddleware (middleware-utils.ts lines 19-23): the identity
wrapper, returning its argument unchanged and untagged. -/
def createMiddleware {F : Type} (v : JsFn F) : JsFn F := v

/-- The two structural shapes a middleware function can have. -/
inductive RawShape (ε σ Γ A ρ : Type) where
  | plainShape (f : Middleware ε σ A ρ)
  | ctxShape (f : ContextMiddleware ε σ Γ A ρ)

/-- Chain-assembly dispatch on a stored middleware value (part_004 lines
130-148): the builder keys off isContextMiddleware. A consistently
tagged value yields the corresponding Link; a value whose marker
disagrees with its shape would be mis-called by the source cast, which
no well-typed program constructs, so it yields none. -/
def attachLink {ε σ Γ A ρ : Type} (v : JsFn (RawShape ε σ Γ A ρ)) :
    Option (Link ε σ Γ A ρ) :=
  match v.code, isContextMiddleware v with
  | RawShape.ctxShape f, true => some (Link.contextual f)
  | RawShape.plainShape f, false => some (Link.plain f)
  | _, _ => none

/-- A heap of new-style builder objects (part_004): each object holds its
middleware list; references are indices below size. -/
structure BuilderHeap (ε σ Γ A ρ : Type) where
  size : Nat
  objAt : Nat → List (Link ε σ Γ A ρ)

/-- ActionBuilder.use of part_004 lines 85-90: constructs a brand new
builder whose list is the receiver's list with the middleware appended,
leaving the receiver untouched, and returns the new object. -/
def ActionBuilder.use {ε σ Γ A ρ : Type} (h : BuilderHeap ε σ Γ A ρ)
    (r : Nat) (mw : Link ε σ Γ A ρ) : BuilderHeap ε σ Γ A ρ × Nat :=
  (BuilderHeap.mk (h.size + 1)
    (fun n => if n = h.size then h.objAt r ++ [mw] else h.objAt n),
   h.size)

/-- A heap of legacy builder objects (middleware.ts): each object holds
its context-middleware array. -/
structure LegacyHeap (ε σ Γ A ρ : Type) where
  size : Nat
  objAt : Nat → List (ContextMiddleware ε σ Γ A ρ)

/-- ActionBuilder.use of middleware.ts lines 144-151: pushes the
middleware onto the receiver's own array in place and returns the same
receiver. -/
def legacyUse {ε σ Γ A ρ : Type} (h : LegacyHeap ε σ Γ A ρ)
    (r : Nat) (mw : ContextMiddleware ε σ Γ A ρ) :
    LegacyHeap ε σ Γ A ρ × Nat :=
  (LegacyHeap.mk h.size
    (fun n => if n = r then h.objAt r ++ [mw] else h.objAt n),
   r)

/-- One issue of a schema-library error object. -/
structure ZodIssue where
  message : String
  deriving Repr, DecidableEq

/-- The error object of a failed safeParse: an optional top-level message
and an optional issues array. -/
structure ZodErrorInfo where
  message : Option String
  errors : Option (List ZodIssue)
  deriving Repr, DecidableEq

/-- The result of safeParse. -/
inductive SafeParseResult (α : Type) where
  | parsed (data : α)
  | failed (err : ZodErrorInfo)

/-- ValidationSchema: anything exposing safeParse. -/
structure ValidationSchema (α : Type) where
  safeParse : α → SafeParseResult α

/-- WithValidationOptions: optional code and optional formatter. -/
structure WithValidationOptions where
  code : Option String
  formatError : Option (ZodErrorInfo → String)

/-- withZodValidation (middleware-utils.ts lines 126-147, identical in
middleware.ts lines 305-326): on parse failure it returns the Failure
with code defaulted to VALIDATION_ERROR and message from the formatter,
else the first issue's message, else the top-level message, else a fixed
fallback, never calling next; on success it delegates to next with the
parsed data. -/
def withZodValidation {ε σ ρ α : Type} (schema : ValidationSchema α)
    (options : WithValidationOptions) : Middleware ε σ α ρ :=
  let code := options.code.getD "VALIDATION_ERROR"
  let formatErr := options.formatError
  fun next input =>
    match schema.safeParse input with
    | SafeParseResult.failed err =>
        let message :=
          match formatErr with
          | some f => f err
          | none =>
              ((Option.bind err.errors List.head?).map ZodIssue.message).getD
                (err.message.getD "Validation failed")
        M.pure (error message (some code))
    | SafeParseResult.parsed d => next d

/-- A HandledError instance: message and optional code (errors.ts). -/
structure HandledError where
  message : String
  code : Option String

/-- HandledError.toServerActionError (errors.ts lines 11-17). -/
def HandledError.toServerActionError {T : Type} (e : HandledError) :
    ServerActionResult T :=
  ⟨false, none, some e.message, e.code⟩

/-- A value thrown inside a wrapped function: either a HandledError
instance or anything else. -/
inductive Thrown where
  | handled (e : HandledError)
  | other (tag : String)

/-- Options of serverAction: the optional onError callback, modelled as a
pure effect on the state. -/
structure ServerActionOptions (σ : Type) where
  onError : Option (Thrown → σ → σ)

/-- serverAction (part_006 lines 38-56): awaits the function; on
resolution wraps the value in success; on a thrown value it first runs
the onError callback, then returns the HandledError's conversion when
the value is one, else the fixed unexpected-error Failure. It never
rethrows. -/
def serverAction {σ A T : Type} (fn : A → M Thrown σ T)
    (options : ServerActionOptions σ) :
    A → M Thrown σ (ServerActionResult T) :=
  fun a s =>
    match fn a s with
    | (s1, Except.ok d) => (s1, Except.ok (success d))
    | (s1, Except.error e) =>
        let s2 :=
          match options.onError with
          | some cb => cb e s1
          | none => s1
        match e with
        | Thrown.handled he => (s2, Except.ok he.toServerActionError)
        | Thrown.other _ =>
            (s2, Except.ok (error "An unexpected error occurred" (some "UNKNOWN_ERROR")))

/-- Observable events of an instrumented chain. -/
inductive Ev where
  | enter (i : Nat)
  | leave (i : Nat)
  | handled
  deriving Repr, DecidableEq

/-- An instrumented plain middleware: records entry, delegates with
unchanged arguments, records its unwind, forwards the result. -/
def traceMw (i : Nat) : Middleware Unit (List Ev) Nat Nat :=
  fun next a =>
    M.bind (M.tell (Ev.enter i)) fun _ =>
      M.bind (next a) fun r =>
        M.bind (M.tell (Ev.leave i)) fun _ => M.pure r

/-- An instrumented context middleware: records entry, delegates with
unchanged context and arguments, records its unwind. -/
def traceCtxMw (i : Nat) : ContextMiddleware Unit (List Ev) BaseContext Nat Nat :=
  fun next ctx a =>
    M.bind (M.tell (Ev.enter i)) fun _ =>
      M.bind (next ctx a) fun r =>
        M.bind (M.tell (Ev.leave i)) fun _ => M.pure r

/-- An instrumented terminal handler: records the handler event and
resolves with a success. -/
def traceHandler : BaseContext → Nat → M Unit (List Ev) (ServerActionResult Nat) :=
  fun _ a => M.bind (M.tell Ev.handled) fun _ => M.pure (success a)

/-- An instrumented base action for applyMiddleware. -/
def traceAction : Nat → M Unit (List Ev) (ServerActionResult Nat) :=
  fun a => M.bind (M.tell Ev.handled) fun _ => M.pure (success a)

/-- A chain entry of either species carrying the given identity. -/
def traceLink (p : Nat × Bool) : Link Unit (List Ev) BaseContext Nat Nat :=
  if p.2 then Link.contextual (traceCtxMw p.1) else Link.plain (traceMw p.1)

/-- A plain middleware that delegates unchanged and forwards the result. -/
def idPlain {ε σ A ρ : Type} : Middleware ε σ A ρ := fun next a => next a

/-- A context middleware that delegates unchanged and forwards the result. -/
def idCtx {ε σ Γ A ρ : Type} : ContextMiddleware ε σ Γ A ρ :=
  fun next ctx a => next ctx a

/-- A plain middleware that short-circuits with a fixed Failure, never
calling next. -/
def failMw {ε σ A ρ : Type} (m : String) (c : Option String) : Middleware ε σ A ρ :=
  fun _ _ => M.pure (error m c)

/-- A plain middleware that throws, never calling next. -/
def throwPlain {ε σ A ρ : Type} (e : ε) : Middleware ε σ A ρ :=
  fun _ _ => M.throw e

/-- A plain middleware that transforms the argument before delegating. -/
def incPlain {ε σ ρ : Type} : Middleware ε σ Nat ρ := fun next a => next (a + 1)

/-- A handler resolving with the success of its argument. -/
def okHandler {ε σ A : Type} : BaseContext → A → M ε σ (ServerActionResult A) :=
  fun _ a => M.pure (success a)

/-- A handler that throws instead of returning a Result. -/
def throwingHandler {σ A ρ : Type} : BaseContext → A → M String σ (ServerActionResult ρ) :=
  fun _ _ => M.throw "boom"

/-- A continuation that ignores the context and succeeds with the
argument. -/
def okCtxNext {ε σ : Type} : CtxNextFn ε σ BaseContext Nat Nat :=
  fun _ a => M.pure (success a)

/-- A plain next continuation succeeding with the argument. -/
def okNext {ε σ : Type} : PlainNextFn ε σ Nat Nat :=
  fun a => M.pure (success a)

/-- A schema whose safeParse always fails with two issues. -/
def failSchema : ValidationSchema Nat :=
  ⟨fun _ => SafeParseResult.failed
    (ZodErrorInfo.mk (some "top level") (some [ZodIssue.mk "X", ZodIssue.mk "Y"]))⟩

/-- A schema whose safeParse always fails with no issues array. -/
def failSchemaNoIssues : ValidationSchema Nat :=
  ⟨fun _ => SafeParseResult.failed (ZodErrorInfo.mk (some "top level") none)⟩

/-- A schema whose safeParse succeeds with a transformed value. -/
def okSchema : ValidationSchema Nat :=
  ⟨fun n => SafeParseResult.parsed (n + 1)⟩

/-- Options with neither a code nor a formatter supplied. -/
def noOpts : WithValidationOptions := ⟨none, none⟩

/-- Options with a caller-supplied code. -/
def myCodeOpts : WithValidationOptions := ⟨some "MY_CODE", none⟩

/-- A wrapped function resolving or throwing depending on its argument. -/
def sampleFn : Nat → M Thrown Unit Nat := fun a =>
  if a = 0 then M.throw (Thrown.handled (HandledError.mk "denied" (some "DENIED")))
  else if a = 1 then M.throw (Thrown.other "boom") else M.pure (a * 2)

/-- serverAction options with no onError callback. -/
def noSAOptions : ServerActionOptions Unit := ⟨none⟩

/-- A link that ignores its continuation yields the same wrapped
continuation whatever stands downstream of it. -/
theorem wrapLink_ignoresNext {ε σ Γ A ρ : Type} (l : Link ε σ Γ A ρ)
    (h : l.ignoresNext) (n n' : CtxNextFn ε σ Γ A ρ) :
    wrapLink l n = wrapLink l n' := by
  cases l with
  | plain f =>
      funext ctx a
      exact h (fun params => n ctx params) (fun params => n' ctx params) a
  | contextual f =>
      funext ctx a
      exact h (fun newCtx params => n newCtx params)
        (fun newCtx params => n' newCtx params) ctx a

/-- Splitting the chain fold at a distinguished middle link. -/
theorem buildChain_append {ε σ Γ A ρ : Type} (pre post : List (Link ε σ Γ A ρ))
    (mid : Link ε σ Γ A ρ) (h : Γ → A → M ε σ (ServerActionResult ρ)) :
    buildChain (pre ++ mid :: post) h
      = pre.foldr wrapLink (wrapLink mid (buildChain post h)) := by
  simp [buildChain, List.foldr_append]

/-- If the base continuation always resolves to r and every link returns
the result of next unchanged, the folded chain always resolves to r. -/
theorem chain_produces {ε σ Γ A ρ : Type} (mws : List (Link ε σ Γ A ρ))
    (k : CtxNextFn ε σ Γ A ρ) (r : ServerActionResult ρ)
    (hk : ∀ ctx a, producesOk (k ctx a) r)
    (hm : ∀ l ∈ mws, l.preservesResult) :
    ∀ ctx a, producesOk (mws.foldr wrapLink k ctx a) r := by
  induction mws with
  | nil => exact hk
  | cons l rest ih =>
      have hrest : ∀ ctx a, producesOk (rest.foldr wrapLink k ctx a) r :=
        ih fun l' hl' => hm l' (List.mem_cons_of_mem _ hl')
      intro ctx a
      have hl : l.preservesResult := hm l (List.mem_cons_self _ _)
      cases l with
      | plain f =>
          exact hl r (fun params => rest.foldr wrapLink k ctx params) a
            fun a' => hrest ctx a'
      | contextual f =>
          exact hl r (fun newCtx params => rest.foldr wrapLink k newCtx params) ctx a
            fun ctx' a' => hrest ctx' a'

/-- Identity links collapse the chain onto its base continuation. -/
theorem chain_id {ε σ Γ A ρ : Type} (mws : List (Link ε σ Γ A ρ))
    (k : CtxNextFn ε σ Γ A ρ) (hm : ∀ l ∈ mws, l.isIdentity) :
    ∀ ctx a, mws.foldr wrapLink k ctx a = k ctx a := by
  induction mws with
  | nil => intro ctx a; rfl
  | cons l rest ih =>
      have hrest := ih fun l' hl' => hm l' (List.mem_cons_of_mem _ hl')
      intro ctx a
      have hl : l.isIdentity := hm l (List.mem_cons_self _ _)
      cases l with
      | plain f =>
          have step : f (fun params => rest.foldr wrapLink k ctx params) a
              = rest.foldr wrapLink k ctx a :=
            hl (fun params => rest.foldr wrapLink k ctx params) a
          exact step.trans (hrest ctx a)
      | contextual f =>
          have step : f (fun newCtx params => rest.foldr wrapLink k newCtx params) ctx a
              = rest.foldr wrapLink k ctx a :=
            hl (fun newCtx params => rest.foldr wrapLink k newCtx params) ctx a
          exact step.trans (hrest ctx a)

/-- If the base continuation always rejects with e and every link
propagates rejections, the folded chain rejects with e. -/
theorem chain_throws {ε σ Γ A ρ : Type} (mws : List (Link ε σ Γ A ρ))
    (k : CtxNextFn ε σ Γ A ρ) (e : ε)
    (hk : ∀ ctx a s, (k ctx a s).2 = Except.error e)
    (hm : ∀ l ∈ mws, l.propagatesThrow) :
    ∀ ctx a s, (mws.foldr wrapLink k ctx a s).2 = Except.error e := by
  induction mws with
  | nil => exact hk
  | cons l rest ih =>
      have hrest := ih fun l' hl' => hm l' (List.mem_cons_of_mem _ hl')
      intro ctx a s
      have hl : l.propagatesThrow := hm l (List.mem_cons_self _ _)
      cases l with
      | plain f =>
          exact hl e (fun params => rest.foldr wrapLink k ctx params) a
            (fun a' s' => hrest ctx a' s') s
      | contextual f =>
          exact hl e (fun newCtx params => rest.foldr wrapLink k newCtx params) ctx a
            (fun ctx' a' s' => hrest ctx' a' s') s

/-- If the base continuation never yields a Failure and no link introduces
one, the folded chain never yields a Failure. -/
theorem chain_noFail {ε σ Γ A ρ : Type} (mws : List (Link ε σ Γ A ρ))
    (k : CtxNextFn ε σ Γ A ρ)
    (hk : ∀ ctx a, noFailResult (k ctx a))
    (hm : ∀ l ∈ mws, l.neverFails) :
    ∀ ctx a, noFailResult (mws.foldr wrapLink k ctx a) := by
  induction mws with
  | nil => exact hk
  | cons l rest ih =>
      have hrest := ih fun l' hl' => hm l' (List.mem_cons_of_mem _ hl')
      intro ctx a
      have hl : l.neverFails := hm l (List.mem_cons_self _ _)
      cases l with
      | plain f =>
          exact hl (fun params => rest.foldr wrapLink k ctx params) a
            fun a' => hrest ctx a'
      | contextual f =>
          exact hl (fun newCtx params => rest.foldr wrapLink k newCtx params) ctx a
            fun ctx' a' => hrest ctx' a'

/-- Trace shape of a chain of instrumented links around a base
continuation of known trace: entry events in attachment order, the base
trace, then the unwind events in reverse attachment order. -/
theorem traceChain_eq (l : List (Nat × Bool))
    (k : CtxNextFn Unit (List Ev) BaseContext Nat Nat)
    (t : List Ev) (r : Nat → ServerActionResult Nat)
    (hk : ∀ ctx a s, k ctx a s = (s ++ t, Except.ok (r a))) :
    ∀ ctx a s, (l.map traceLink).foldr wrapLink k ctx a s
      = (s ++ (l.map fun p => Ev.enter p.1) ++ t
          ++ ((l.map fun p => Ev.leave p.1)).reverse, Except.ok (r a)) := by
  induction l with
  | nil =>
      intro ctx a s
      simpa using hk ctx a s
  | cons p rest ih =>
      intro ctx a s
      rcases p with ⟨i, b⟩
      cases b with
      | false =>
          show wrapLink (traceLink (i, false)) ((rest.map traceLink).foldr wrapLink k) ctx a s = _
          simp only [traceLink, if_neg Bool.false_ne_true]
          show (M.bind (M.tell (Ev.enter i)) fun _ =>
            M.bind ((rest.map traceLink).foldr wrapLink k ctx a) fun r' =>
              M.bind (M.tell (Ev.leave i)) fun _ => M.pure r') s = _
          simp [M.bind, M.tell, M.pure, ih]
      | true =>
          show wrapLink (traceLink (i, true)) ((rest.map traceLink).foldr wrapLink k) ctx a s = _
          simp only [traceLink, if_pos rfl]
          show (M.bind (M.tell (Ev.enter i)) fun _ =>
            M.bind ((rest.map traceLink).foldr wrapLink k ctx a) fun r' =>
              M.bind (M.tell (Ev.leave i)) fun _ => M.pure r') s = _
          simp [M.bind, M.tell, M.pure, ih]

/-- Trace shape of applyMiddleware over instrumented plain middleware. -/
theorem applyTrace_eq (js : List Nat)
    (k : Nat → M Unit (List Ev) (ServerActionResult Nat))
    (t : List Ev) (r : Nat → ServerActionResult Nat)
    (hk : ∀ a s, k a s = (s ++ t, Except.ok (r a))) :
    ∀ a s, applyMiddleware k (js.map traceMw) a s
      = (s ++ js.map Ev.enter ++ t ++ (js.map Ev.leave).reverse, Except.ok (r a)) := by
  induction js with
  | nil =>
      intro a s
      simpa using hk a s
  | cons i rest ih =>
      intro a s
      show (M.bind (M.tell (Ev.enter i)) fun _ =>
        M.bind (applyMiddleware k (rest.map traceMw) a) fun r' =>
          M.bind (M.tell (Ev.leave i)) fun _ => M.pure r') s = _
      simp [M.bind, M.tell, M.pure, ih]

/-- C1: when the middleware at position k returns a Failure without
calling its next continuation, the built action's behaviour is
independent of the handler and of every middleware after position k
(they are never invoked), and, provided every middleware before
position k returns the result of next unchanged, the built action
resolves to exactly that Failure. -/
theorem builtAction_shortCircuit {ε σ A ρ : Type}
    (pre post : List (Link ε σ BaseContext A ρ)) (mid : Link ε σ BaseContext A ρ)
    (m : String) (c : Option String)
    (hIgn : mid.ignoresNext) (hRet : mid.alwaysReturns (error m c)) :
    (∀ (post' : List (Link ε σ BaseContext A ρ))
       (h h' : BaseContext → A → M ε σ (ServerActionResult ρ)),
       handleAction (pre ++ mid :: post) h = handleAction (pre ++ mid :: post') h')
    ∧ ((∀ l ∈ pre, l.preservesResult) →
       ∀ (h : BaseContext → A → M ε σ (ServerActionResult ρ)) args,
         producesOk (handleAction (pre ++ mid :: post) h args) (error m c)) := by
  constructor
  · intro post' h h'
    have e1 : wrapLink mid (buildChain post h) = wrapLink mid (buildChain post' h') :=
      wrapLink_ignoresNext mid hIgn (buildChain post h) (buildChain post' h')
    funext args
    show buildChain (pre ++ mid :: post) h emptyContext args
        = buildChain (pre ++ mid :: post') h' emptyContext args
    rw [buildChain_append, buildChain_append, e1]
  · intro hpre h args
    have hbase : ∀ ctx a, producesOk (wrapLink mid (buildChain post h) ctx a) (error m c) := by
      intro ctx a
      cases mid with
      | plain f => exact hRet (fun params => buildChain post h ctx params) a
      | contextual f =>
          exact hRet (fun newCtx params => buildChain post h newCtx params) ctx a
    have hall := chain_produces pre (wrapLink mid (buildChain post h)) (error m c) hbase hpre
    show producesOk (buildChain (pre ++ mid :: post) h emptyContext args) (error m c)
    rw [buildChain_append]
    exact hall emptyContext args

/-- Witness for C1: a three-link chain whose middle link short-circuits
with an Unauthorized Failure; the built action yields exactly it. -/
theorem builtAction_shortCircuit_witness :
    producesOk
      (handleAction
        [Link.plain (@idPlain Unit Unit Nat Nat),
         Link.plain (failMw "Unauthorized" (some "UNAUTHORIZED")),
         Link.plain idPlain]
        okHandler (5 : Nat))
      (error "Unauthorized" (some "UNAUTHORIZED")) := by
  have h := @builtAction_shortCircuit Unit Unit Nat Nat
    [Link.plain idPlain] [Link.plain idPlain]
    (Link.plain (failMw "Unauthorized" (some "UNAUTHORIZED")))
    "Unauthorized" (some "UNAUTHORIZED")
    (fun n n' a => rfl) (fun n a s => rfl)
  refine h.2 ?_ okHandler 5
  intro l hl
  have hl' : l = Link.plain idPlain := by simpa using hl
  subst hl'
  exact fun r n a hn => hn a

/-- C2: an action built from instrumented middleware of either species
runs entry code strictly in attachment order, then the handler, and
unwinds in exact reverse order, on every call and from every effect
state; applyMiddleware over a list of instrumented plain middleware
obeys the same stack discipline. -/
theorem builtAction_traceOrder (l : List (Nat × Bool)) (js : List Nat)
    (a : Nat) (s : List Ev) :
    handleAction (l.map traceLink) traceHandler a s
      = (s ++ (l.map fun p => Ev.enter p.1) ++ [Ev.handled]
          ++ ((l.map fun p => Ev.leave p.1)).reverse, Except.ok (success a))
    ∧ applyMiddleware traceAction (js.map traceMw) a s
      = (s ++ js.map Ev.enter ++ [Ev.handled] ++ (js.map Ev.leave).reverse,
         Except.ok (success a)) := by
  constructor
  · have hk : ∀ ctx a s, finalHandler traceHandler ctx a s
        = (s ++ [Ev.handled], Except.ok (success a)) := fun _ _ _ => rfl
    exact traceChain_eq l (finalHandler traceHandler) [Ev.handled] success hk
      emptyContext a s
  · have hk : ∀ a s, traceAction a s = (s ++ [Ev.handled], Except.ok (success a)) :=
      fun _ _ => rfl
    exact applyTrace_eq js traceAction [Ev.handled] success hk a s

/-- C3: a chain of any number of middleware that each call next exactly
once with unchanged arguments and context and return its result
unmodified, around a handler returning a Success, yields that same
Success; and every invocation starts the fold at the empty context with
the caller's arguments. -/
theorem builtAction_identityChain {ε σ A ρ : Type}
    (mws : List (Link ε σ BaseContext A ρ))
    (h : BaseContext → A → M ε σ (ServerActionResult ρ)) (d : ρ)
    (hid : ∀ l ∈ mws, l.isIdentity)
    (hh : ∀ ctx a, h ctx a = M.pure (success d)) (args : A) :
    handleAction mws h args = M.pure (success d)
    ∧ handleAction mws h args = buildChain mws h emptyContext args := by
  constructor
  · have step : handleAction mws h args = finalHandler h emptyContext args :=
      chain_id mws (finalHandler h) hid emptyContext args
    exact step.trans (hh emptyContext args)
  · rfl

/-- Witness for C3: two identity links of both species around a handler
succeeding with 9. -/
theorem builtAction_identityChain_witness :
    handleAction [Link.plain (@idPlain Unit Unit Nat Nat), Link.contextual idCtx]
      (fun _ _ => M.pure (success 9)) (7 : Nat)
      = M.pure (success (9 : Nat))
    ∧ handleAction [Link.plain (@idPlain Unit Unit Nat Nat), Link.contextual idCtx]
        (fun _ _ => M.pure (success 9)) (7 : Nat)
      = buildChain [Link.plain idPlain, Link.contextual idCtx]
          (fun _ _ => M.pure (success 9)) emptyContext 7 := by
  refine @builtAction_identityChain Unit Unit Nat Nat
    [Link.plain idPlain, Link.contextual idCtx]
    (fun _ _ => M.pure (success 9)) 9 ?_ (fun _ _ => rfl) 7
  intro l hl
  have hl' : l = Link.plain idPlain ∨ l = Link.contextual idCtx := by simpa using hl
  cases hl' with
  | inl e => subst e; exact fun n a => rfl
  | inr e => subst e; exact fun n ctx a => rfl

/-- C4 counterexample: for the legacy ActionBuilder of middleware.ts, use
on a builder with an empty middleware array changes the receiver's own
array, refuting the claim that b's own middleware list is unchanged
after b.use(mw). -/
theorem legacyUse_mutates_receiver_cex :
    ¬ ((legacyUse
          (LegacyHeap.mk 1
            fun _ => ([] : List (ContextMiddleware Unit Unit BaseContext Nat Nat)))
          0 idCtx).1.objAt 0
        = (LegacyHeap.mk 1
            fun _ => ([] : List (ContextMiddleware Unit Unit BaseContext Nat Nat))).objAt 0) := by
  simp [legacyUse]

/-- C4 amended: use on the newer ActionBuilder (part_004) is pure with
respect to the receiver, returning a fresh builder whose list is the
receiver's list with the middleware appended while the receiver's own
list stays unchanged; the legacy ActionBuilder.use of middleware.ts
instead pushes onto the receiver's own array in place and returns the
same builder. -/
theorem builderUse_pure_amended {ε σ Γ A ρ : Type}
    (h : BuilderHeap ε σ Γ A ρ) (r : Nat) (mw : Link ε σ Γ A ρ)
    (lh : LegacyHeap ε σ Γ A ρ) (lr : Nat) (lmw : ContextMiddleware ε σ Γ A ρ)
    (hr : r < h.size) :
    ((ActionBuilder.use h r mw).2 ≠ r
     ∧ (ActionBuilder.use h r mw).1.objAt r = h.objAt r
     ∧ (ActionBuilder.use h r mw).1.objAt (ActionBuilder.use h r mw).2
         = h.objAt r ++ [mw])
    ∧ ((legacyUse lh lr lmw).2 = lr
       ∧ (legacyUse lh lr lmw).1.objAt lr = lh.objAt lr ++ [lmw]) := by
  refine ⟨⟨?_, ?_, ?_⟩, rfl, ?_⟩
  · show h.size ≠ r
    omega
  · show (if r = h.size then h.objAt r ++ [mw] else h.objAt r) = h.objAt r
    rw [if_neg (by omega)]
  · show (if h.size = h.size then h.objAt r ++ [mw] else h.objAt h.size)
        = h.objAt r ++ [mw]
    rw [if_pos rfl]
  · show (if lr = lr then lh.objAt lr ++ [lmw] else lh.objAt lr)
        = lh.objAt lr ++ [lmw]
    rw [if_pos rfl]

/-- Witness for C4's amended theorem: on a one-object heap, the new
builder's use leaves the receiver's empty list empty. -/
theorem builderUse_pure_amended_witness :
    (ActionBuilder.use
      (BuilderHeap.mk 1 fun _ => ([] : List (Link Unit Unit BaseContext Nat Nat)))
      0 (Link.plain idPlain)).1.objAt 0 = [] := by
  have h := @builderUse_pure_amended Unit Unit BaseContext Nat Nat
    (BuilderHeap.mk 1 fun _ => []) 0 (Link.plain idPlain)
    (LegacyHeap.mk 1 fun _ => []) 0 idCtx (by decide)
  exact h.1.2.1

/-- C5: in the chain step for a plain middleware, the continuation handed
downstream delegates with exactly the context that link received, even
when the middleware transforms the call's arguments, and the wrapped
link's behaviour can depend on the context only through what its
continuation does at that context: plain middleware can neither observe
nor alter the context. -/
theorem plainLink_ctx_transparent {ε σ Γ A ρ : Type} (f : Middleware ε σ A ρ)
    (next next' : CtxNextFn ε σ Γ A ρ) (ctx ctx' : Γ) (a : A)
    (hagree : ∀ a', next ctx a' = next' ctx' a') :
    wrapLink (Link.plain f) next ctx a = f (fun params => next ctx params) a
    ∧ wrapLink (Link.plain f) next ctx a = wrapLink (Link.plain f) next' ctx' a := by
  constructor
  · rfl
  · show f (fun params => next ctx params) a = f (fun params => next' ctx' params) a
    rw [funext hagree]

/-- Witness for C5: an argument-transforming plain middleware wrapped at
the empty context and at a one-key context behaves identically when its
continuation ignores the context. -/
theorem plainLink_ctx_transparent_witness :
    wrapLink (Link.plain (@incPlain Unit Unit Nat)) okCtxNext emptyContext 3
      = incPlain (fun params => okCtxNext emptyContext params) 3
    ∧ wrapLink (Link.plain (@incPlain Unit Unit Nat)) okCtxNext emptyContext 3
      = wrapLink (Link.plain incPlain) okCtxNext [("user", "x")] 3 :=
  plainLink_ctx_transparent incPlain okCtxNext okCtxNext emptyContext
    [("user", "x")] 3 (fun _ => rfl)

/-- C6: createContextMiddleware returns its argument's function with the
context marker set, so isContextMiddleware holds of it, while
createMiddleware returns its argument unchanged and untagged so
isContextMiddleware does not hold of an untagged function it returns;
chain-assembly dispatch keyed on the marker selects the contextual wrap
for the former and the plain wrap for the latter. -/
theorem contextMarker_dispatch {ε σ Γ A ρ F : Type}
    (v g : JsFn F) (hg : g.contextMarker = false)
    (f : ContextMiddleware ε σ Γ A ρ) (p : Middleware ε σ A ρ) (b : Bool) :
    isContextMiddleware (createContextMiddleware v) = true
    ∧ (createContextMiddleware v).code = v.code
    ∧ createMiddleware g = g
    ∧ isContextMiddleware (createMiddleware g) = false
    ∧ attachLink (createContextMiddleware (JsFn.mk (RawShape.ctxShape f) b))
        = some (Link.contextual f)
    ∧ attachLink (createMiddleware
        (JsFn.mk (RawShape.plainShape p : RawShape ε σ Γ A ρ) false))
        = some (Link.plain p) :=
  ⟨rfl, rfl, rfl, hg, rfl, rfl⟩

/-- Witness for C6 at concrete tagged and untagged function values. -/
theorem contextMarker_dispatch_witness :
    isContextMiddleware (createContextMiddleware (JsFn.mk (7 : Nat) false)) = true
    ∧ (createContextMiddleware (JsFn.mk (7 : Nat) false)).code = (JsFn.mk (7 : Nat) false).code
    ∧ createMiddleware (JsFn.mk (7 : Nat) false) = JsFn.mk (7 : Nat) false
    ∧ isContextMiddleware (createMiddleware (JsFn.mk (7 : Nat) false)) = false
    ∧ attachLink (createContextMiddleware
        (JsFn.mk (RawShape.ctxShape (@idCtx Unit Unit BaseContext Nat Nat)) false))
        = some (Link.contextual idCtx)
    ∧ attachLink (createMiddleware
        (JsFn.mk (RawShape.plainShape (@idPlain Unit Unit Nat Nat)
          : RawShape Unit Unit BaseContext Nat Nat) false))
        = some (Link.plain idPlain) :=
  @contextMarker_dispatch Unit Unit BaseContext Nat Nat Nat
    (JsFn.mk 7 false) (JsFn.mk 7 false) rfl idCtx idPlain false

/-- C7: the composition performs no exception catching: when a link
throws instead of returning a Result and the links outside it propagate
rejections, the built action rejects with exactly that thrown value,
and likewise when the terminal handler throws; and the composition
never produces a Failure of its own: when the handler and every link
yield only success Results, so does the built action. -/
theorem builtAction_noCatch {ε σ A ρ : Type}
    (pre post mws : List (Link ε σ BaseContext A ρ))
    (mid : Link ε σ BaseContext A ρ) (e : ε)
    (h : BaseContext → A → M ε σ (ServerActionResult ρ)) :
    ((∀ l ∈ pre, l.propagatesThrow) → mid.alwaysThrows e →
      ∀ args s, (handleAction (pre ++ mid :: post) h args s).2 = Except.error e)
    ∧ ((∀ l ∈ mws, l.propagatesThrow) →
       (∀ ctx a s, (h ctx a s).2 = Except.error e) →
      ∀ args s, (handleAction mws h args s).2 = Except.error e)
    ∧ ((∀ l ∈ mws, l.neverFails) → (∀ ctx a, noFailResult (h ctx a)) →
      ∀ args, noFailResult (handleAction mws h args)) := by
  refine ⟨?_, ?_, ?_⟩
  · intro hpre hmid args s
    have hbase : ∀ ctx a s,
        (wrapLink mid (buildChain post h) ctx a s).2 = Except.error e := by
      intro ctx a s
      cases mid with
      | plain f => exact hmid (fun params => buildChain post h ctx params) a s
      | contextual f =>
          exact hmid (fun newCtx params => buildChain post h newCtx params) ctx a s
    have hall := chain_throws pre (wrapLink mid (buildChain post h)) e hbase hpre
    show (buildChain (pre ++ mid :: post) h emptyContext args s).2 = Except.error e
    rw [buildChain_append]
    exact hall emptyContext args s
  · intro hmws hh args s
    exact chain_throws mws (finalHandler h) e hh hmws emptyContext args s
  · intro hmws hh args
    exact chain_noFail mws (finalHandler h) hh hmws emptyContext args

/-- Witness for C7: a throwing middle link rejects the whole action; a
throwing handler rejects the whole action; an all-success chain yields
no Failure. -/
theorem builtAction_noCatch_witness :
    (handleAction
      [Link.plain (@idPlain String Unit Nat Nat),
       Link.plain (throwPlain "boom"), Link.plain idPlain]
      okHandler 2 ()).2 = Except.error "boom"
    ∧ (handleAction [Link.plain (@idPlain String Unit Nat Nat)]
        throwingHandler 2 ()).2 = Except.error "boom"
    ∧ noFailResult (handleAction [Link.plain (@idPlain String Unit Nat Nat)]
        okHandler 2) := by
  have hprop : (Link.plain (@idPlain String Unit Nat Nat)
      : Link String Unit BaseContext Nat Nat).propagatesThrow :=
    fun e n a hn s => hn a s
  have hmem : ∀ l ∈ ([Link.plain (@idPlain String Unit Nat Nat)]
      : List (Link String Unit BaseContext Nat Nat)), l.propagatesThrow := by
    intro l hl
    have hl' : l = Link.plain idPlain := by simpa using hl
    subst hl'
    exact hprop
  refine ⟨?_, ?_, ?_⟩
  · exact (builtAction_noCatch [Link.plain idPlain] [Link.plain idPlain] []
      (Link.plain (throwPlain "boom")) "boom" okHandler).1
      hmem (fun n a s => rfl) 2 ()
  · exact (builtAction_noCatch [] [] [Link.plain idPlain]
      (Link.plain (throwPlain "boom")) "boom" throwingHandler).2.1
      hmem (fun ctx a s => rfl) 2 ()
  · refine (builtAction_noCatch [] [] [Link.plain idPlain]
      (Link.plain (throwPlain "boom")) "boom" okHandler).2.2
      ?_ ?_ 2
    · intro l hl
      have hl' : l = Link.plain idPlain := by simpa using hl
      subst hl'
      exact fun n a hn => hn a
    · intro ctx a s r hr
      have : success a = r := by
        simpa [okHandler, M.pure] using hr
      rw [this.symm]
      rfl

/-- C8: the validation middleware, with no formatter supplied, returns on
parse failure the Failure whose message is the first issue's message,
falling back to the error's top-level message and then to a fixed
fallback when the issues array is absent, with the code defaulting to
VALIDATION_ERROR unless the caller supplied one, never invoking next;
and on parse success it delegates to next with the parsed data and is
that delegation. -/
theorem withZodValidation_spec {ε σ ρ α : Type} (opts : WithValidationOptions)
    (next : PlainNextFn ε σ α ρ) (input : α) :
    (∀ (schema : ValidationSchema α) err issues X,
       schema.safeParse input = SafeParseResult.failed err →
       err.errors = some issues → issues.head? = some (ZodIssue.mk X) →
       opts.formatError = none →
       withZodValidation schema opts next input
         = (M.pure (error X (some (opts.code.getD "VALIDATION_ERROR")))
             : M ε σ (ServerActionResult ρ)))
    ∧ (∀ (schema : ValidationSchema α) err,
       schema.safeParse input = SafeParseResult.failed err →
       err.errors = none → opts.formatError = none →
       withZodValidation schema opts next input
         = (M.pure (error (err.message.getD "Validation failed")
             (some (opts.code.getD "VALIDATION_ERROR")))
             : M ε σ (ServerActionResult ρ)))
    ∧ (∀ (schema : ValidationSchema α) d,
       schema.safeParse input = SafeParseResult.parsed d →
       withZodValidation schema opts next input = next d) := by
  refine ⟨?_, ?_, ?_⟩
  · intro schema err issues X hparse herr hhead hfmt
    simp [withZodValidation, hparse, herr, hhead, hfmt]
  · intro schema err hparse herr hfmt
    simp [withZodValidation, hparse, herr, hfmt]
  · intro schema d hparse
    simp [withZodValidation, hparse]

/-- Witness for C8: concrete schemas exercising the first-issue message,
the default and caller-supplied codes, the top-level-message fallback,
and delegation of the parsed value. -/
theorem withZodValidation_spec_witness :
    withZodValidation failSchema noOpts (@okNext Unit Unit) 3
      = M.pure (error "X" (some "VALIDATION_ERROR"))
    ∧ withZodValidation failSchema myCodeOpts (@okNext Unit Unit) 3
      = M.pure (error "X" (some "MY_CODE"))
    ∧ withZodValidation failSchemaNoIssues noOpts (@okNext Unit Unit) 3
      = M.pure (error "top level" (some "VALIDATION_ERROR"))
    ∧ withZodValidation okSchema noOpts (@okNext Unit Unit) 3 = okNext 4 :=
  ⟨(withZodValidation_spec noOpts okNext 3).1 failSchema
      (ZodErrorInfo.mk (some "top level") (some [ZodIssue.mk "X", ZodIssue.mk "Y"]))
      [ZodIssue.mk "X", ZodIssue.mk "Y"] "X" rfl rfl rfl rfl,
   (withZodValidation_spec myCodeOpts okNext 3).1 failSchema
      (ZodErrorInfo.mk (some "top level") (some [ZodIssue.mk "X", ZodIssue.mk "Y"]))
      [ZodIssue.mk "X", ZodIssue.mk "Y"] "X" rfl rfl rfl rfl,
   (withZodValidation_spec noOpts okNext 3).2.1 failSchemaNoIssues
      (ZodErrorInfo.mk (some "top level") none) rfl rfl rfl,
   (withZodValidation_spec noOpts okNext 3).2.2 okSchema 4 rfl⟩

/-- C9: success(data) is exactly the object with the true discriminant
and the payload and no failure fields; error(message, code?) is exactly
the object with the false discriminant, the required message string and
a code that is a string or absent, with no data field. -/
theorem result_shape {T : Type} (d : T) (m : String) (c : Option String) :
    success d = ServerActionResult.mk true (some d) none none
    ∧ (error m c : ServerActionResult T) = ServerActionResult.mk false none (some m) c
    ∧ (success d).ok = true ∧ (success d).data = some d
    ∧ (success d).message = none ∧ (success d).code = none
    ∧ (error m c : ServerActionResult T).ok = false
    ∧ (error m c : ServerActionResult T).data = none
    ∧ (error m c : ServerActionResult T).message = some m
    ∧ (error m c : ServerActionResult T).code = c
    ∧ (c = none ∨ ∃ sc : String, c = some sc) := by
  refine ⟨rfl, rfl, rfl, rfl, rfl, rfl, rfl, rfl, rfl, rfl, ?_⟩
  cases c with
  | none => exact Or.inl rfl
  | some sc => exact Or.inr ⟨sc, rfl⟩

/-- C10: serverAction(fn) always resolves to a Result and never rejects:
resolution of fn yields the Success of its value, a thrown HandledError
yields the Failure with that error's message and code, and any other
thrown value yields the fixed unexpected-error Failure. -/
theorem serverAction_total {σ A T : Type} (fn : A → M Thrown σ T)
    (options : ServerActionOptions σ) (a : A) :
    (∀ s, ∃ s2 r, serverAction fn options a s = (s2, Except.ok r))
    ∧ (∀ s s1 (d : T), fn a s = (s1, Except.ok d) →
        (serverAction fn options a s).2 = Except.ok (success d))
    ∧ (∀ s s1 he, fn a s = (s1, Except.error (Thrown.handled he)) →
        (serverAction fn options a s).2 = Except.ok (error he.message he.code))
    ∧ (∀ s s1 t, fn a s = (s1, Except.error (Thrown.other t)) →
        (serverAction fn options a s).2
          = Except.ok (error "An unexpected error occurred" (some "UNKNOWN_ERROR"))) := by
  refine ⟨?_, ?_, ?_, ?_⟩
  · intro s
    rcases hfn : fn a s with ⟨s1, x⟩
    cases x with
    | ok d => exact ⟨s1, success d, by simp [serverAction, hfn]⟩
    | error e =>
        cases e with
        | handled he =>
            cases hopt : options.onError with
            | none =>
                exact ⟨s1, he.toServerActionError, by simp [serverAction, hfn, hopt]⟩
            | some cb =>
                exact ⟨cb (Thrown.handled he) s1, he.toServerActionError,
                  by simp [serverAction, hfn, hopt]⟩
        | other t =>
            cases hopt : options.onError with
            | none =>
                exact ⟨s1, error "An unexpected error occurred" (some "UNKNOWN_ERROR"),
                  by simp [serverAction, hfn, hopt]⟩
            | some cb =>
                exact ⟨cb (Thrown.other t) s1,
                  error "An unexpected error occurred" (some "UNKNOWN_ERROR"),
                  by simp [serverAction, hfn, hopt]⟩
  · intro s s1 d hfn
    simp [serverAction, hfn]
  · intro s s1 he hfn
    simp [serverAction, hfn, HandledError.toServerActionError, error]
  · intro s s1 t hfn
    simp [serverAction, hfn]

/-- Witness for C10: a function that resolves at 3, throws a HandledError
at 0 and throws a plain value at 1. -/
theorem serverAction_total_witness :
    (serverAction sampleFn noSAOptions 3 ()).2 = Except.ok (success 6)
    ∧ (serverAction sampleFn noSAOptions 0 ()).2
        = Except.ok (error "denied" (some "DENIED"))
    ∧ (serverAction sampleFn noSAOptions 1 ()).2
        = Except.ok (error "An unexpected error occurred" (some "UNKNOWN_ERROR")) :=
  ⟨(serverAction_total sampleFn noSAOptions 3).2.1 () () 6 rfl,
   (serverAction_total sampleFn noSAOptions 0).2.2.1 () ()
     (HandledError.mk "denied" (some "DENIED")) rfl,
   (serverAction_total sampleFn noSAOptions 1).2.2.2 () () "boom" rfl⟩

end UseServerAction
